import Mathlib

/-!
Shallow embedding of the Pixel Classification Engine of RMD_Analyzer
(`src/types.ts`: `rgbToHsv`, `analyzeImagePixelData`).

Modelling choices:
* Pixel bytes are `Nat` (a `Uint8ClampedArray` holds values in 0..255;
  claims that need the bound carry it as a hypothesis).
* JavaScript number arithmetic inside `rgbToHsv` and the percentage
  computation is modelled in exact rational arithmetic (`ℚ`).
* `processedPixels = totalPixels - excludedPixels` is computed in `Int`,
  because the source computes it with JS subtraction and it can be
  negative when the buffer is longer than `width*height*4`.
* The `for (let i = 0; i < data.length; i += 4)` loop is modelled by
  `loopGo`, which peels four bytes per iteration.  When `data.length` is
  not a multiple of 4 the source reads out-of-range indices, which in JS
  yield `undefined`; tracing the source's comparisons with `undefined`:
  - a trailing 3-byte chunk `[r,g,b]` has `data[i+3] === undefined`, and
    `undefined < 255` is `false`, so the pixel is treated as fully opaque
    and classified from its RGB;
  - a trailing 1- or 2-byte chunk has `g` or `b` equal to `undefined`;
    every exclusion and exact-match test then evaluates to `false`
    (comparisons with `undefined` are `false`), and inside `rgbToHsv`
    `max` is `NaN`, so `s = NaN`, `NaN >= 0.55` is `false`, and the pixel
    falls through to the `Other` counter.
-/

/-- A decoded bitmap as the engine receives it (`ImageData`): declared
dimensions plus a flat RGBA byte sequence. -/
structure ImageData where
  width : Nat
  height : Nat
  data : List Nat
deriving DecidableEq, Repr

/-- `ColorCategory` from `src/types.ts`. -/
structure ColorCategory where
  name : String
  id : String
  color : String
  count : Nat
  percentage : ℚ
deriving DecidableEq, Repr

/-- `AnalysisResult` from `src/types.ts`. -/
structure AnalysisResult where
  totalPixels : Nat
  processedPixels : Int
  excludedPixels : Nat
  categories : List ColorCategory
  width : Nat
  height : Nat
deriving DecidableEq, Repr

/-- Result of `rgbToHsv`: `h` in degrees, `s` and `v` normalized. -/
structure Hsv where
  h : ℚ
  s : ℚ
  v : ℚ
deriving DecidableEq, Repr

/-- `rgbToHsv` from `src/types.ts`, lines 38-66, in exact rational
arithmetic.  The JS `switch (max)` tests `max === r`, then `max === g`,
then `max === b`, in that order. -/
def rgbToHsv (r0 g0 b0 : Nat) : Hsv :=
  let r : ℚ := (r0 : ℚ) / 255
  let g : ℚ := (g0 : ℚ) / 255
  let b : ℚ := (b0 : ℚ) / 255
  let mx : ℚ := max r (max g b)
  let mn : ℚ := min r (min g b)
  let v : ℚ := mx
  let d : ℚ := mx - mn
  let s : ℚ := if mx = 0 then 0 else d / mx
  let h : ℚ :=
    if mx ≠ mn then
      (if mx = r then (g - b) / d + (if g < b then 6 else 0)
       else if mx = g then (b - r) / d + 2
       else (r - g) / d + 4) / 6
    else 0
  ⟨h * 360, s, v⟩

/-- The seven per-pixel outcomes of the loop body: one counter is
incremented per iteration. -/
inductive PixelClass where
  | excluded
  | warm
  | darkGreen
  | blue
  | neonGreen
  | grey
  | other
deriving DecidableEq, Repr

/-- The loop body of `analyzeImagePixelData` after the alpha check
(lines 101-149): exclusion logic, the four exact-match colors in source
order, the HSV warm band, then the `Other` fallback. -/
def classifyOpaque (r g b : Nat) : PixelClass :=
  let isMagenta := r = 255 ∧ g = 0 ∧ b = 255
  let isBorder := 150 < r ∧ 150 < b ∧ g < 60
  if isMagenta ∨ isBorder then .excluded
  else if r = 0 ∧ g = 146 ∧ b = 69 then .darkGreen
  else if r = 0 ∧ g = 0 ∧ b = 255 then .blue
  else if r = 0 ∧ g = 255 ∧ b = 0 then .neonGreen
  else if r = 77 ∧ g = 77 ∧ b = 77 then .grey
  else
    let hsv := rgbToHsv r g b
    if 0 ≤ hsv.h ∧ hsv.h ≤ 75 ∧ (55 : ℚ) / 100 ≤ hsv.s ∧ (35 : ℚ) / 100 ≤ hsv.v
    then .warm
    else .other

/-- The full loop body (lines 90-149): the alpha check first, then the
opaque-pixel logic. -/
def classifyPixel (r g b a : Nat) : PixelClass :=
  if a < 255 then .excluded else classifyOpaque r g b

/-- The seven running counters of `analyzeImagePixelData`
(`excludedPixels`, `countWarm`, ..., `countOther`). -/
structure Counters where
  excluded : Nat
  warm : Nat
  darkGreen : Nat
  blue : Nat
  neonGreen : Nat
  grey : Nat
  other : Nat
deriving DecidableEq, Repr

/-- Increment the counter selected by the loop body. -/
def Counters.step (c : Counters) : PixelClass → Counters
  | .excluded => { c with excluded := c.excluded + 1 }
  | .warm => { c with warm := c.warm + 1 }
  | .darkGreen => { c with darkGreen := c.darkGreen + 1 }
  | .blue => { c with blue := c.blue + 1 }
  | .neonGreen => { c with neonGreen := c.neonGreen + 1 }
  | .grey => { c with grey := c.grey + 1 }
  | .other => { c with other := c.other + 1 }

/-- The pixel loop (lines 90-150), four bytes per iteration.  The three
partial-chunk cases encode the JS `undefined` semantics of out-of-range
reads, traced in the header comment: a 3-byte chunk is classified as an
opaque pixel, a 1- or 2-byte chunk always lands in `Other`. -/
def loopGo : List Nat → Counters → Counters
  | r :: g :: b :: a :: rest, c => loopGo rest (c.step (classifyPixel r g b a))
  | [r, g, b], c => c.step (classifyOpaque r g b)
  | [_, _], c => c.step .other
  | [_], c => c.step .other
  | [], c => c

/-- `analyzeImagePixelData` from `src/types.ts`, lines 68-210.  The
source performs no validation of `data.length` against
`width*height*4`: it runs the loop over whatever buffer it is given and
always returns a result. -/
def analyzeImagePixelData (imageData : ImageData) : AnalysisResult :=
  let width := imageData.width
  let height := imageData.height
  let totalPixels := width * height
  let c := loopGo imageData.data ⟨0, 0, 0, 0, 0, 0, 0⟩
  let excludedPixels := c.excluded
  let processedPixels : Int := (totalPixels : Int) - (excludedPixels : Int)
  -- `const safeTotal = processedPixels === 0 ? 1 : processedPixels;`
  let safeTotal : Int := if processedPixels = 0 then 1 else processedPixels
  let pct : Nat → ℚ := fun count => ((count : ℚ) / (safeTotal : ℚ)) * 100
  { totalPixels := totalPixels
    processedPixels := processedPixels
    excludedPixels := excludedPixels
    categories :=
      [ ⟨"Warm (Red/Orange/Yellow)", "warm", "#ed1c24", c.warm, pct c.warm⟩,
        ⟨"Dark Green (#009245)", "dark_green", "#009245", c.darkGreen, pct c.darkGreen⟩,
        ⟨"Blue (#0000ff)", "blue", "#0000ff", c.blue, pct c.blue⟩,
        ⟨"Neon Green (#00ff00)", "neon_green", "#00ff00", c.neonGreen, pct c.neonGreen⟩,
        ⟨"Grey (#4d4d4d)", "grey", "#4d4d4d", c.grey, pct c.grey⟩,
        ⟨"Other / Unclassified", "other", "#9CA3AF", c.other, pct c.other⟩ ]
    width := width
    height := height }

/-- Sum of the six category counts of a result. -/
def sumCounts (res : AnalysisResult) : Nat :=
  (res.categories.map ColorCategory.count).sum

/-- Sum of all seven counters. -/
def Counters.total (c : Counters) : Nat :=
  c.excluded + c.warm + c.darkGreen + c.blue + c.neonGreen + c.grey + c.other

/-! ### Counter accounting lemmas -/

/-- Each loop iteration increments exactly one counter. -/
theorem Counters.step_total (c : Counters) (p : PixelClass) :
    (c.step p).total = c.total + 1 := by
  cases p <;> simp only [Counters.step, Counters.total] <;> omega

/-- The loop performs one counter increment per started 4-byte chunk:
`⌈data.length / 4⌉` increments in all. -/
theorem loopGo_total (data : List Nat) (c : Counters) :
    (loopGo data c).total = c.total + (data.length + 3) / 4 := by
  induction data, c using loopGo.induct with
  | case1 r g b a rest c ih =>
      rw [loopGo, ih, Counters.step_total]
      simp only [List.length_cons]
      omega
  | case2 r g b c => rw [loopGo, Counters.step_total]; norm_num
  | case3 x y c => rw [loopGo, Counters.step_total]; norm_num
  | case4 x c => rw [loopGo, Counters.step_total]; norm_num
  | case5 c => rw [loopGo]; norm_num

/-! ### Claim theorems -/

/-- C1: the claim says a length-mismatched buffer makes
`analyzeImagePixelData` fail with a `MalformedInputError` before any
counting.  The source contains no such validation: on the mismatched
input `width = 1`, `height = 1`, empty buffer (length `0 ≠ 1*1*4`) it
returns an ordinary result (`totalPixels = 1`, nothing counted) instead
of failing. -/
theorem analyze_no_malformed_check :
    (analyzeImagePixelData ⟨1, 1, []⟩).totalPixels = 1 ∧
    (analyzeImagePixelData ⟨1, 1, []⟩).excludedPixels = 0 ∧
    (analyzeImagePixelData ⟨1, 1, []⟩).processedPixels = 1 ∧
    sumCounts (analyzeImagePixelData ⟨1, 1, []⟩) = 0 := by decide

/-- C2: conservation.  For every well-formed bitmap
(`data.length = width * height * 4`), `excludedPixels` plus the sum of
the six category counts equals `totalPixels = width * height`. -/
theorem analyze_conservation (img : ImageData)
    (h : img.data.length = img.width * img.height * 4) :
    (analyzeImagePixelData img).excludedPixels + sumCounts (analyzeImagePixelData img)
      = (analyzeImagePixelData img).totalPixels := by
  have htot := loopGo_total img.data ⟨0, 0, 0, 0, 0, 0, 0⟩
  simp only [Counters.total] at htot
  simp only [analyzeImagePixelData, sumCounts, List.map_cons, List.map_nil,
    List.sum_cons, List.sum_nil]
  rw [h] at htot
  generalize img.width * img.height = T at htot ⊢
  omega

/-- C2 witness: conservation holds on the concrete 1×1 dark-green
bitmap. -/
theorem analyze_conservation_witness :
    (analyzeImagePixelData ⟨1, 1, [0, 146, 69, 255]⟩).excludedPixels
        + sumCounts (analyzeImagePixelData ⟨1, 1, [0, 146, 69, 255]⟩)
      = (analyzeImagePixelData ⟨1, 1, [0, 146, 69, 255]⟩).totalPixels :=
  analyze_conservation ⟨1, 1, [0, 146, 69, 255]⟩ (by decide)

/-- C4: the opacity check comes first: any pixel with `alpha < 255` is
excluded, whatever its RGB value; no exclusion-color or category rule is
evaluated for it. -/
theorem alpha_check_first (r g b a : Nat) (h : a < 255) :
    classifyPixel r g b a = PixelClass.excluded := by
  simp [classifyPixel, h]

/-- C4 witness: the pixel (0,146,69) — exactly the Dark Green rule color
— with `alpha = 128` is excluded. -/
theorem alpha_check_first_witness :
    classifyPixel 0 146 69 128 = PixelClass.excluded :=
  alpha_check_first 0 146 69 128 (by decide)

/-- C5: first-match-wins priority for opaque non-excluded pixels: the
exact rules fire in declared order (Dark Green, Blue, Neon Green, Grey),
then the HSV warm band, then the `Other` fallback; a pixel matching an
earlier rule is classified by it regardless of any later predicate. -/
theorem classify_priority_order (r g b : Nat)
    (hexcl : ¬((r = 255 ∧ g = 0 ∧ b = 255) ∨ (150 < r ∧ 150 < b ∧ g < 60))) :
    ((r = 0 ∧ g = 146 ∧ b = 69) → classifyOpaque r g b = PixelClass.darkGreen) ∧
    ((r = 0 ∧ g = 0 ∧ b = 255) → classifyOpaque r g b = PixelClass.blue) ∧
    ((r = 0 ∧ g = 255 ∧ b = 0) → classifyOpaque r g b = PixelClass.neonGreen) ∧
    ((r = 77 ∧ g = 77 ∧ b = 77) → classifyOpaque r g b = PixelClass.grey) ∧
    (¬(r = 0 ∧ g = 146 ∧ b = 69) → ¬(r = 0 ∧ g = 0 ∧ b = 255) →
     ¬(r = 0 ∧ g = 255 ∧ b = 0) → ¬(r = 77 ∧ g = 77 ∧ b = 77) →
     (0 ≤ (rgbToHsv r g b).h ∧ (rgbToHsv r g b).h ≤ 75 ∧
      (55 : ℚ) / 100 ≤ (rgbToHsv r g b).s ∧ (35 : ℚ) / 100 ≤ (rgbToHsv r g b).v) →
     classifyOpaque r g b = PixelClass.warm) ∧
    (¬(r = 0 ∧ g = 146 ∧ b = 69) → ¬(r = 0 ∧ g = 0 ∧ b = 255) →
     ¬(r = 0 ∧ g = 255 ∧ b = 0) → ¬(r = 77 ∧ g = 77 ∧ b = 77) →
     ¬(0 ≤ (rgbToHsv r g b).h ∧ (rgbToHsv r g b).h ≤ 75 ∧
       (55 : ℚ) / 100 ≤ (rgbToHsv r g b).s ∧ (35 : ℚ) / 100 ≤ (rgbToHsv r g b).v) →
     classifyOpaque r g b = PixelClass.other) := by
  refine ⟨?_, ?_, ?_, ?_, ?_, ?_⟩
  · rintro ⟨rfl, rfl, rfl⟩; decide
  · rintro ⟨rfl, rfl, rfl⟩; decide
  · rintro ⟨rfl, rfl, rfl⟩; decide
  · rintro ⟨rfl, rfl, rfl⟩; decide
  · intro h1 h2 h3 h4 hw
    simp only [classifyOpaque]
    rw [if_neg hexcl, if_neg h1, if_neg h2, if_neg h3, if_neg h4, if_pos hw]
  · intro h1 h2 h3 h4 hw
    simp only [classifyOpaque]
    rw [if_neg hexcl, if_neg h1, if_neg h2, if_neg h3, if_neg h4, if_neg hw]

/-- C5 witness: the exact Dark Green pixel (0,146,69) is classified by
the first rule. -/
theorem classify_priority_order_witness :
    classifyOpaque 0 146 69 = PixelClass.darkGreen :=
  (classify_priority_order 0 146 69 (by decide)).1 (by decide)

/-- C8: stable output ordering: for every input, the categories of the
result are the six fixed entries Warm, Dark Green, Blue, Neon Green,
Grey, Other, in this order. -/
theorem analyze_stable_ordering (img : ImageData) :
    ((analyzeImagePixelData img).categories.map ColorCategory.id)
        = ["warm", "dark_green", "blue", "neon_green", "grey", "other"] ∧
    ((analyzeImagePixelData img).categories.map ColorCategory.name)
        = ["Warm (Red/Orange/Yellow)", "Dark Green (#009245)", "Blue (#0000ff)",
           "Neon Green (#00ff00)", "Grey (#4d4d4d)", "Other / Unclassified"] :=
  ⟨rfl, rfl⟩

/-- C10 (amended): `analyzeImagePixelData` is total — it returns a
result on every input, with `totalPixels` taken from the declared
dimensions, while the loop classifies `⌈data.length / 4⌉` byte chunks
(not `⌊data.length / 4⌋`: a trailing partial chunk is still counted);
on length-mismatched input conservation can fail and `processedPixels`
can be negative, as the 0×0 image with one transparent pixel shows. -/
theorem analyze_total_on_malformed :
    (∀ img : ImageData,
      (analyzeImagePixelData img).totalPixels = img.width * img.height ∧
      (analyzeImagePixelData img).excludedPixels + sumCounts (analyzeImagePixelData img)
        = (img.data.length + 3) / 4 ∧
      (analyzeImagePixelData img).processedPixels
        = ((img.width * img.height : Nat) : Int)
            - ((analyzeImagePixelData img).excludedPixels : Int)) ∧
    (analyzeImagePixelData ⟨0, 0, [0, 0, 0, 0]⟩).processedPixels < 0 ∧
    (analyzeImagePixelData ⟨0, 0, [0, 0, 0, 0]⟩).excludedPixels
        + sumCounts (analyzeImagePixelData ⟨0, 0, [0, 0, 0, 0]⟩)
      ≠ (analyzeImagePixelData ⟨0, 0, [0, 0, 0, 0]⟩).totalPixels := by
  refine ⟨fun img => ⟨rfl, ?_, rfl⟩, by decide, by decide⟩
  have htot := loopGo_total img.data ⟨0, 0, 0, 0, 0, 0, 0⟩
  simp only [Counters.total] at htot
  simp only [analyzeImagePixelData, sumCounts, List.map_cons, List.map_nil,
    List.sum_cons, List.sum_nil]
  omega

/-- C10 counterexample to the claim as stated: on the 3-byte buffer
`[255,0,255]` the loop still runs one iteration (the chunk is treated as
an opaque magenta pixel and excluded), so it classifies 1 pixel, not
`⌊3 / 4⌋ = 0`. -/
theorem analyze_floor_counterexample :
    (analyzeImagePixelData ⟨0, 0, [255, 0, 255]⟩).excludedPixels
        + sumCounts (analyzeImagePixelData ⟨0, 0, [255, 0, 255]⟩) = 1 ∧
    (ImageData.mk 0 0 [255, 0, 255]).data.length / 4 = 0 := by decide

/-- The percentage computation `count / (processed == 0 ? 1 : processed) * 100`
agrees with `100 * count / max(processed, 1)` whenever `processed ≥ 0`. -/
theorem pct_formula (count : Nat) (P : Int) (hP : 0 ≤ P) :
    ((count : ℚ) / (((if P = 0 then 1 else P) : Int) : ℚ)) * 100
      = 100 * (count : ℚ) / max (P : ℚ) 1 := by
  rcases lt_or_eq_of_le hP with hpos | hzero
  · rw [if_neg (by omega : ¬ P = 0), max_eq_left (by exact_mod_cast hpos : (1:ℚ) ≤ (P:ℚ))]
    ring
  · subst hzero
    norm_num [mul_comm]

/-- C3: percentage law.  On every well-formed bitmap, each category's
percentage equals `100 * count / max(processedPixels, 1)`, and when every
pixel is excluded (`processedPixels = 0`) every percentage is 0 — the
`processedPixels == 0 ? 1 : processedPixels` guard prevents division by
zero. -/
theorem analyze_percentage_law (img : ImageData)
    (h : img.data.length = img.width * img.height * 4) :
    (∀ cat ∈ (analyzeImagePixelData img).categories,
        cat.percentage
          = 100 * (cat.count : ℚ)
              / max (((analyzeImagePixelData img).processedPixels : ℚ)) 1) ∧
    ((analyzeImagePixelData img).processedPixels = 0 →
      ∀ cat ∈ (analyzeImagePixelData img).categories, cat.percentage = 0) := by
  have htot := loopGo_total img.data ⟨0, 0, 0, 0, 0, 0, 0⟩
  simp only [Counters.total] at htot
  rw [h] at htot
  have hT : (img.width * img.height * 4 + 3) / 4 = img.width * img.height := by
    generalize img.width * img.height = T
    omega
  rw [hT] at htot
  simp only [analyzeImagePixelData, List.mem_cons, List.not_mem_nil, or_false,
    forall_eq_or_imp, forall_eq]
  constructor
  · refine ⟨?_, ?_, ?_, ?_, ?_, ?_⟩ <;>
      exact pct_formula _ _ (by omega)
  · intro h0
    have hw : (loopGo img.data ⟨0, 0, 0, 0, 0, 0, 0⟩).warm = 0 := by omega
    have hdg : (loopGo img.data ⟨0, 0, 0, 0, 0, 0, 0⟩).darkGreen = 0 := by omega
    have hbl : (loopGo img.data ⟨0, 0, 0, 0, 0, 0, 0⟩).blue = 0 := by omega
    have hng : (loopGo img.data ⟨0, 0, 0, 0, 0, 0, 0⟩).neonGreen = 0 := by omega
    have hgr : (loopGo img.data ⟨0, 0, 0, 0, 0, 0, 0⟩).grey = 0 := by omega
    have hot : (loopGo img.data ⟨0, 0, 0, 0, 0, 0, 0⟩).other = 0 := by omega
    refine ⟨?_, ?_, ?_, ?_, ?_, ?_⟩
    · rw [hw]; norm_num
    · rw [hdg]; norm_num
    · rw [hbl]; norm_num
    · rw [hng]; norm_num
    · rw [hgr]; norm_num
    · rw [hot]; norm_num

/-- C3 witness: the percentage law instantiated on a 2×2 all-magenta
bitmap, on which every pixel is excluded. -/
theorem analyze_percentage_law_witness :
    (∀ cat ∈ (analyzeImagePixelData
        ⟨2, 2, [255,0,255,255, 255,0,255,255, 255,0,255,255, 255,0,255,255]⟩).categories,
        cat.percentage
          = 100 * (cat.count : ℚ)
              / max (((analyzeImagePixelData
                  ⟨2, 2, [255,0,255,255, 255,0,255,255, 255,0,255,255,
                    255,0,255,255]⟩).processedPixels : ℚ)) 1) ∧
    ((analyzeImagePixelData
        ⟨2, 2, [255,0,255,255, 255,0,255,255, 255,0,255,255, 255,0,255,255]⟩).processedPixels = 0 →
      ∀ cat ∈ (analyzeImagePixelData
        ⟨2, 2, [255,0,255,255, 255,0,255,255, 255,0,255,255, 255,0,255,255]⟩).categories,
        cat.percentage = 0) :=
  analyze_percentage_law
    ⟨2, 2, [255,0,255,255, 255,0,255,255, 255,0,255,255, 255,0,255,255]⟩ (by decide)

/-- C6: the warm band is a literal, non-wrapping interval.  A fully
opaque, non-excluded pixel matching no exact rule is classified Warm iff
its HSV satisfies `0 ≤ H ≤ 75`, `S ≥ 0.55`, `V ≥ 0.35`; hue is compared
literally, with no wraparound past 360. -/
theorem warm_band_iff (r g b : Nat)
    (hexcl : ¬((r = 255 ∧ g = 0 ∧ b = 255) ∨ (150 < r ∧ 150 < b ∧ g < 60)))
    (h1 : ¬(r = 0 ∧ g = 146 ∧ b = 69)) (h2 : ¬(r = 0 ∧ g = 0 ∧ b = 255))
    (h3 : ¬(r = 0 ∧ g = 255 ∧ b = 0)) (h4 : ¬(r = 77 ∧ g = 77 ∧ b = 77)) :
    classifyOpaque r g b = PixelClass.warm ↔
      (0 ≤ (rgbToHsv r g b).h ∧ (rgbToHsv r g b).h ≤ 75 ∧
       (55 : ℚ) / 100 ≤ (rgbToHsv r g b).s ∧ (35 : ℚ) / 100 ≤ (rgbToHsv r g b).v) := by
  simp only [classifyOpaque]
  rw [if_neg hexcl, if_neg h1, if_neg h2, if_neg h3, if_neg h4]
  by_cases hw : (0 ≤ (rgbToHsv r g b).h ∧ (rgbToHsv r g b).h ≤ 75 ∧
       (55 : ℚ) / 100 ≤ (rgbToHsv r g b).s ∧ (35 : ℚ) / 100 ≤ (rgbToHsv r g b).v)
  · rw [if_pos hw]; simp [hw]
  · rw [if_neg hw]; simp [hw]

/-- C6 witness: (200,30,30), with hue 0, saturation 0.85, value ≈ 0.78,
is Warm; the high-saturation, high-value pixel (255,75,78) has hue
exactly 359 and is classified Other, not Warm — no hue wraparound. -/
theorem warm_band_iff_witness :
    classifyOpaque 200 30 30 = PixelClass.warm ∧
    (rgbToHsv 255 75 78).h = 359 ∧
    classifyOpaque 255 75 78 = PixelClass.other := by
  refine ⟨(warm_band_iff 200 30 30 (by decide) (by decide) (by decide) (by decide)
      (by decide)).mpr ?_, ?_, ?_⟩
  · simp only [rgbToHsv, max_def, min_def]
    norm_num
  · simp only [rgbToHsv, max_def, min_def]
    norm_num
  · simp only [classifyOpaque, rgbToHsv, max_def, min_def]
    norm_num

/-- C7: `rgbToHsv` is total and safe on byte triples: `H ∈ [0,360)`,
`S ∈ [0,1]`, `V ∈ [0,1]`, with `S = 0` when the channel maximum is 0 and
`H = 0` when `delta = 0` (achromatic pixels); the `max == 0` and
`delta == 0` guards mean no division by zero occurs (the model is exact
rational arithmetic, where every operation is total). -/
theorem rgbToHsv_safe (r g b : Nat) (hr : r ≤ 255) (hg : g ≤ 255) (hb : b ≤ 255) :
    0 ≤ (rgbToHsv r g b).h ∧ (rgbToHsv r g b).h < 360 ∧
    0 ≤ (rgbToHsv r g b).s ∧ (rgbToHsv r g b).s ≤ 1 ∧
    0 ≤ (rgbToHsv r g b).v ∧ (rgbToHsv r g b).v ≤ 1 ∧
    (max ((r:ℚ)/255) (max ((g:ℚ)/255) ((b:ℚ)/255)) = 0 → (rgbToHsv r g b).s = 0) ∧
    (max ((r:ℚ)/255) (max ((g:ℚ)/255) ((b:ℚ)/255))
        = min ((r:ℚ)/255) (min ((g:ℚ)/255) ((b:ℚ)/255)) → (rgbToHsv r g b).h = 0) := by
  have h255 : (0:ℚ) < 255 := by norm_num
  simp only [rgbToHsv]
  set qr : ℚ := (r:ℚ)/255 with hqr
  set qg : ℚ := (g:ℚ)/255 with hqg
  set qb : ℚ := (b:ℚ)/255 with hqb
  have h0r : (0:ℚ) ≤ qr := by rw [hqr]; positivity
  have h0g : (0:ℚ) ≤ qg := by rw [hqg]; positivity
  have h0b : (0:ℚ) ≤ qb := by rw [hqb]; positivity
  have h1r : qr ≤ 1 := by rw [hqr, div_le_one h255]; exact_mod_cast hr
  have h1g : qg ≤ 1 := by rw [hqg, div_le_one h255]; exact_mod_cast hg
  have h1b : qb ≤ 1 := by rw [hqb, div_le_one h255]; exact_mod_cast hb
  set mx : ℚ := max qr (max qg qb) with hmx
  set mn : ℚ := min qr (min qg qb) with hmn
  have hmx0 : (0:ℚ) ≤ mx := le_trans h0r (le_max_left _ _)
  have hmx1 : mx ≤ 1 := max_le h1r (max_le h1g h1b)
  have hmn0 : (0:ℚ) ≤ mn := le_min h0r (le_min h0g h0b)
  have hrmx : qr ≤ mx := le_max_left _ _
  have hgmx : qg ≤ mx := le_trans (le_max_left _ _) (le_max_right _ _)
  have hbmx : qb ≤ mx := le_trans (le_max_right _ _) (le_max_right _ _)
  have hmnr : mn ≤ qr := min_le_left _ _
  have hmng : mn ≤ qg := le_trans (min_le_right _ _) (min_le_left _ _)
  have hmnb : mn ≤ qb := le_trans (min_le_right _ _) (min_le_right _ _)
  have hmnmx : mn ≤ mx := le_trans hmnr hrmx
  have hS : 0 ≤ (if mx = 0 then (0:ℚ) else (mx - mn) / mx) ∧
      (if mx = 0 then (0:ℚ) else (mx - mn) / mx) ≤ 1 := by
    by_cases hz : mx = 0
    · rw [if_pos hz]; norm_num
    · rw [if_neg hz]
      have hmxpos : (0:ℚ) < mx := lt_of_le_of_ne hmx0 (Ne.symm hz)
      exact ⟨div_nonneg (by linarith) hmx0, by rw [div_le_one hmxpos]; linarith⟩
  have hS0 : mx = 0 → (if mx = 0 then (0:ℚ) else (mx - mn) / mx) = 0 :=
    fun hz => by rw [if_pos hz]
  have hH0 : mx = mn →
      ((if mx ≠ mn then
          (if mx = qr then (qg - qb) / (mx - mn) + (if qg < qb then 6 else 0)
           else if mx = qg then (qb - qr) / (mx - mn) + 2
           else (qr - qg) / (mx - mn) + 4) / 6
        else 0) * 360) = 0 :=
    fun hmm => by rw [if_neg (not_not_intro hmm)]; ring
  have hH : 0 ≤ ((if mx ≠ mn then
          (if mx = qr then (qg - qb) / (mx - mn) + (if qg < qb then 6 else 0)
           else if mx = qg then (qb - qr) / (mx - mn) + 2
           else (qr - qg) / (mx - mn) + 4) / 6
        else 0) * 360) ∧
      ((if mx ≠ mn then
          (if mx = qr then (qg - qb) / (mx - mn) + (if qg < qb then 6 else 0)
           else if mx = qg then (qb - qr) / (mx - mn) + 2
           else (qr - qg) / (mx - mn) + 4) / 6
        else 0) * 360) < 360 := by
    by_cases heq : mx = mn
    · rw [if_neg (not_not_intro heq)]; norm_num
    · rw [if_pos heq]
      have hmnlt : mn < mx := lt_of_le_of_ne hmnmx fun hh => heq hh.symm
      have hd : (0:ℚ) < mx - mn := sub_pos.mpr hmnlt
      by_cases hcr : mx = qr
      · rw [if_pos hcr]
        by_cases hgb : qg < qb
        · rw [if_pos hgb]
          have ht1 : (-1:ℚ) ≤ (qg - qb) / (mx - mn) := by rw [le_div_iff₀ hd]; linarith
          have ht2 : (qg - qb) / (mx - mn) < 0 := div_neg_of_neg_of_pos (by linarith) hd
          constructor <;> linarith
        · rw [if_neg hgb]
          have ht1 : 0 ≤ (qg - qb) / (mx - mn) := div_nonneg (by linarith) hd.le
          have ht2 : (qg - qb) / (mx - mn) ≤ 1 := by rw [div_le_one hd]; linarith
          constructor <;> linarith
      · rw [if_neg hcr]
        by_cases hcg : mx = qg
        · rw [if_pos hcg]
          have ht1 : (-1:ℚ) ≤ (qb - qr) / (mx - mn) := by rw [le_div_iff₀ hd]; linarith
          have ht2 : (qb - qr) / (mx - mn) ≤ 1 := by rw [div_le_one hd]; linarith
          constructor <;> linarith
        · rw [if_neg hcg]
          have ht1 : (-1:ℚ) ≤ (qr - qg) / (mx - mn) := by rw [le_div_iff₀ hd]; linarith
          have ht2 : (qr - qg) / (mx - mn) ≤ 1 := by rw [div_le_one hd]; linarith
          constructor <;> linarith
  exact ⟨hH.1, hH.2, hS.1, hS.2, hmx0, hmx1, hS0, hH0⟩

/-- C7 witness: the safety bundle at the concrete pixel (200,30,30). -/
theorem rgbToHsv_safe_witness :
    0 ≤ (rgbToHsv 200 30 30).h ∧ (rgbToHsv 200 30 30).h < 360 ∧
    0 ≤ (rgbToHsv 200 30 30).s ∧ (rgbToHsv 200 30 30).s ≤ 1 ∧
    0 ≤ (rgbToHsv 200 30 30).v ∧ (rgbToHsv 200 30 30).v ≤ 1 ∧
    (max ((200:ℚ)/255) (max ((30:ℚ)/255) ((30:ℚ)/255)) = 0 → (rgbToHsv 200 30 30).s = 0) ∧
    (max ((200:ℚ)/255) (max ((30:ℚ)/255) ((30:ℚ)/255))
        = min ((200:ℚ)/255) (min ((30:ℚ)/255) ((30:ℚ)/255)) → (rgbToHsv 200 30 30).h = 0) :=
  rgbToHsv_safe 200 30 30 (by decide) (by decide) (by decide)

/-- C8 witness: the fixed ordering on a concrete 1×1 bitmap. -/
theorem analyze_stable_ordering_witness :
    ((analyzeImagePixelData ⟨1, 1, [10, 10, 10, 255]⟩).categories.map ColorCategory.id)
        = ["warm", "dark_green", "blue", "neon_green", "grey", "other"] ∧
    ((analyzeImagePixelData ⟨1, 1, [10, 10, 10, 255]⟩).categories.map ColorCategory.name)
        = ["Warm (Red/Orange/Yellow)", "Dark Green (#009245)", "Blue (#0000ff)",
           "Neon Green (#00ff00)", "Grey (#4d4d4d)", "Other / Unclassified"] :=
  analyze_stable_ordering ⟨1, 1, [10, 10, 10, 255]⟩
